import Mathlib

/-!
# accesslog: the asynchronous file logger of `logger.go`

A shallow embedding of `asyncFileLogger` (constructor, `Log`, `loop`,
`writeFile`, `rotateLog`, `QueueBufferSize`, `Close`) over an explicit model of
the files it touches, followed by the properties proved about it.

Modelling conventions

* The file system is a map from path to content.  Every call into the `os`
  package appends an `Event` to the trace of the `World`, so that the order of
  the operations of a run can be stated.
* Whether a call into the operating system succeeds is not decided by the
  program: an `Env` carries the answer for each kind of call made during one
  invocation, together with the wall-clock time `time.Now()` returns.
* An `*os.File` is the name it was opened with: a write through the handle
  appends to the file at that name.  The program closes a handle before it
  renames the file and opens a new one right after, so the handle it writes
  through always is the file at `filename`.
* `os.Rename` follows the documentation of the Go standard library: "If newpath
  already exists and is not a directory, Rename replaces it."
* `goconcurrentqueue.NewFIFO()` is a list: `Enqueue` appends at the tail and
  returns `nil` (the queue is never locked by this program), `Dequeue` removes
  the head or reports an error on the empty queue, `GetLen` is the length.
* The constant `MaxLogFileSize` is passed to the functions that read it as the
  parameter `maxSize`; the program is the instance `maxSize = MaxLogFileSize`.
* `sizeNum` is an `int64`.  It only ever holds file lengths and sums of a file
  length and a buffer length, both far below `2^63`, so it is an unbounded `Int`.
* `logBufPool.Put(buf)` gives the buffer back to a pool declared outside
  `logger.go`; it touches neither the logger nor the files and is left out.
* The channel `close` only stops the goroutine running `loop` before `Close`
  starts draining; it is modelled by running `Close` after the loop iterations.
-/

namespace accesslog

/-! ## Data model -/

/-- The bytes of a record (`buf.Bytes()`) or of a file. -/
abbrev Bytes := List UInt8

/-- The max log size: `const MaxLogFileSize int64 = 1024 * 1024 * 1800`. -/
def MaxLogFileSize : Int := 1024 * 1024 * 1800

/-- The file system: the content of the regular file at each path, if any. -/
abbrev FS := String → Option Bytes

/-- The file system with the entry at `name` replaced. -/
def FS.set (fs : FS) (name : String) (v : Option Bytes) : FS :=
  fun p => if p = name then v else fs p

/-- An `*os.File`: the handle remembers the name it was opened with. -/
structure File where
  name : String
deriving DecidableEq

/-- One call into the operating system, with its outcome. -/
inductive Event
  | mkdirAll (ok : Bool)
  | openFile (name : String) (ok : Bool)
  | stat (name : String) (ok : Bool)
  | sync (name : String) (ok : Bool)
  | close (name : String) (ok : Bool)
  | rename (oldpath newpath : String) (ok : Bool)
  | write (name : String) (data : Bytes) (ok : Bool)
deriving DecidableEq

/-- The world outside the logger: the files and the calls made so far. -/
structure World where
  fs : FS
  trace : List Event

/-- A wall-clock time as `time.Now()` returns it, down to the second. -/
structure Time where
  year : Nat
  month : Nat
  day : Nat
  hour : Nat
  minute : Nat
  second : Nat
deriving DecidableEq

/-- A time whose fields are in the calendar ranges and whose year has at most
four digits. -/
def Time.wellFormed (t : Time) : Prop :=
  t.year ≤ 9999 ∧ 1 ≤ t.month ∧ t.month ≤ 12 ∧ 1 ≤ t.day ∧ t.day ≤ 31 ∧
    t.hour ≤ 23 ∧ t.minute ≤ 59 ∧ t.second ≤ 59

instance (t : Time) : Decidable t.wellFormed := by
  unfold Time.wellFormed; infer_instance

/-- What the operating system answers during one invocation: the time, and for
each kind of call whether it succeeds.  `writeFail = none` lets the write
succeed; `writeFail = some k` makes it fail after `k` bytes reached the file. -/
structure Env where
  now : Time
  mkdirOk : Bool
  openOk : Bool
  statOk : Bool
  syncOk : Bool
  closeOk : Bool
  renameOk : Bool
  writeFail : Option Nat

/-- The environment in which no call fails. -/
def Env.allOk (t : Time) : Env :=
  { now := t, mkdirOk := true, openOk := true, statOk := true, syncOk := true,
    closeOk := true, renameOk := true, writeFail := none }

/-- No call into the operating system fails in this environment. -/
def Env.noFail (e : Env) : Prop :=
  e.mkdirOk = true ∧ e.openOk = true ∧ e.statOk = true ∧ e.syncOk = true ∧
    e.closeOk = true ∧ e.renameOk = true ∧ e.writeFail = none

instance (e : Env) : Decidable e.noFail := by
  unfold Env.noFail; infer_instance

/-- The struct `asyncFileLogger` (the channel `close` apart). -/
structure asyncFileLogger where
  filename : String
  file : File
  queue : List Bytes
  sizeNum : Int

/-- The error values the `os` calls hand back. -/
inductive OSError
  | mkdir
  | openFile
  | stat
  | close
deriving DecidableEq

/-- The value a `panic` is raised with. -/
inductive PanicValue
  | text (msg : String)
  | error (e : OSError)
deriving DecidableEq

/-- How a call of a method without result ends: it returns, or it panics.  The
logger and the world of a panic are those at the moment it was raised (after a
failed reopen the field `file`, then `nil`, is shown as it was before). -/
inductive Outcome
  | done (l : asyncFileLogger) (w : World)
  | panicked (v : PanicValue) (l : asyncFileLogger) (w : World)

/-- The call returned normally. -/
def Outcome.isDone : Outcome → Bool
  | .done _ _ => true
  | .panicked _ _ _ => false

/-- The logger at the end of the call. -/
def Outcome.logger : Outcome → asyncFileLogger
  | .done l _ => l
  | .panicked _ l _ => l

/-- The world at the end of the call. -/
def Outcome.world : Outcome → World
  | .done _ w => w
  | .panicked _ _ w => w

/-! ## The calls into the standard library -/

/-- The decimal digit `d % 10` as a character. -/
def digitChar (d : Nat) : Char :=
  ['0', '1', '2', '3', '4', '5', '6', '7', '8', '9'].getD (d % 10) '0'

/-- The decimal digits of `n`, most significant first (`fuel` bounds the number
of divisions; `fuel = n` is always enough). -/
def decimalDigits : Nat → Nat → List Char
  | 0, n => [digitChar n]
  | fuel + 1, n =>
    if n < 10 then [digitChar n] else decimalDigits fuel (n / 10) ++ [digitChar (n % 10)]

/-- `appendInt` of package `time`: `x` in decimal, padded with zeros on the left
to at least `width` digits. -/
def appendInt (x width : Nat) : List Char :=
  List.replicate (width - (decimalDigits x x).length) '0' ++ decimalDigits x x

/-- The layout `"20060102150405"` applied to a time: `t.Format("20060102150405")`. -/
def Format20060102150405 (t : Time) : String :=
  String.mk (appendInt t.year 4 ++ appendInt t.month 2 ++ appendInt t.day 2 ++
    appendInt t.hour 2 ++ appendInt t.minute 2 ++ appendInt t.second 2)

/-- The call `os.MkdirAll(dir, 0755)`; directories are not part of the file model. -/
def osMkdirAll (ok : Bool) (w : World) : Bool × World :=
  (ok, { w with trace := w.trace ++ [Event.mkdirAll ok] })

/-- The call `os.OpenFile(name, O_WRONLY|O_APPEND|O_CREATE, ...)`: creates an
empty file when there is none, and never truncates. -/
def osOpenFile (ok : Bool) (name : String) (w : World) : Option File × World :=
  if ok then
    (some ⟨name⟩,
      { fs := match w.fs name with
              | some _ => w.fs
              | none => w.fs.set name (some []),
        trace := w.trace ++ [Event.openFile name true] })
  else
    (none, { w with trace := w.trace ++ [Event.openFile name false] })

/-- The calls `f.Stat()` and `stat.Size()`: the length of the file. -/
def osStat (ok : Bool) (f : File) (w : World) : Option Int × World :=
  match ok, w.fs f.name with
  | true, some c => (some (c.length : Int), { w with trace := w.trace ++ [Event.stat f.name true] })
  | _, _ => (none, { w with trace := w.trace ++ [Event.stat f.name false] })

/-- The call `f.Sync()`. -/
def osSync (ok : Bool) (f : File) (w : World) : Bool × World :=
  (ok, { w with trace := w.trace ++ [Event.sync f.name ok] })

/-- The call `f.Close()`. -/
def osClose (ok : Bool) (f : File) (w : World) : Bool × World :=
  (ok, { w with trace := w.trace ++ [Event.close f.name ok] })

/-- The call `os.Rename(oldpath, newpath)`: fails when there is no file at
`oldpath`, and replaces the file at `newpath` when there is one. -/
def osRename (ok : Bool) (oldpath newpath : String) (w : World) : Bool × World :=
  match ok, w.fs oldpath with
  | true, some c =>
    (true, { fs := (w.fs.set oldpath none).set newpath (some c),
             trace := w.trace ++ [Event.rename oldpath newpath true] })
  | _, _ => (false, { w with trace := w.trace ++ [Event.rename oldpath newpath false] })

/-- The call `f.Write(b)` on a file opened with `O_APPEND`: returns the number
of bytes written and whether the error is `nil`.  A write that fails may leave a
prefix of `b` in the file. -/
def osWrite (fail : Option Nat) (f : File) (b : Bytes) (w : World) : Nat × Bool × World :=
  match w.fs f.name, fail with
  | some c, none =>
    (b.length, true,
      { fs := w.fs.set f.name (some (c ++ b)),
        trace := w.trace ++ [Event.write f.name b true] })
  | some c, some k =>
    ((b.take k).length, false,
      { fs := w.fs.set f.name (some (c ++ b.take k)),
        trace := w.trace ++ [Event.write f.name (b.take k) false] })
  | none, _ => (0, false, { w with trace := w.trace ++ [Event.write f.name [] false] })

/-- The method `Enqueue` of the FIFO queue. -/
def Enqueue (q : List Bytes) (b : Bytes) : Option OSError × List Bytes :=
  (none, q ++ [b])

/-- The method `Dequeue` of the FIFO queue: the head and the rest, or `none`
for the error on the empty queue. -/
def Dequeue (q : List Bytes) : Option (Bytes × List Bytes) :=
  match q with
  | [] => none
  | b :: rest => some (b, rest)

/-- The method `GetLen` of the FIFO queue. -/
def GetLen (q : List Bytes) : Nat := q.length

/-! ## The logger -/

/-- The function `openAppendFile`. -/
def openAppendFile (ok : Bool) (fileName : String) (w : World) : Option File × World :=
  osOpenFile ok fileName w

/-- The function `newAsyncFileLogger`, given `cfg.Filename`: the logger, or the
error of the first call that failed. -/
def newAsyncFileLogger (env : Env) (cfgFilename : String) (w : World) :
    Except OSError asyncFileLogger × World :=
  match osMkdirAll env.mkdirOk w with
  | (false, w1) => (.error .mkdir, w1)
  | (true, w1) =>
    match openAppendFile env.openOk cfgFilename w1 with
    | (none, w2) => (.error .openFile, w2)
    | (some f, w2) =>
      match osStat env.statOk f w2 with
      | (none, w3) => (.error .stat, w3)
      | (some size, w3) =>
        (.ok { filename := cfgFilename, file := f, queue := [], sizeNum := size }, w3)

/-- The method `Log`. -/
def Log (l : asyncFileLogger) (buf : Bytes) : Option OSError × asyncFileLogger :=
  ((Enqueue l.queue buf).1, { l with queue := (Enqueue l.queue buf).2 })

/-- The method `QueueBufferSize`. -/
def QueueBufferSize (l : asyncFileLogger) : Nat := GetLen l.queue

/-- The name a rotation gives the file:
`fmt.Sprintf("%s-%s", l.filename, time.Now().Format("20060102150405"))`. -/
def rotatedName (filename : String) (now : Time) : String :=
  filename ++ "-" ++ Format20060102150405 now

/-- The method `rotateLog`.  The results of `Sync` and `Close` are dropped. -/
def rotateLog (env : Env) (l : asyncFileLogger) (w : World) : Outcome :=
  let w1 := (osSync env.syncOk l.file w).2
  let w2 := (osClose env.closeOk l.file w1).2
  match osRename env.renameOk l.filename (rotatedName l.filename env.now) w2 with
  | (false, w3) => .panicked (.text "fail to rotate log") l w3
  | (true, w3) =>
    match openAppendFile env.openOk l.filename w3 with
    | (none, w4) => .panicked (.error .openFile) l w4
    | (some f, w4) =>
      match osStat env.statOk f w4 with
      | (none, w5) => .panicked (.error .stat) { l with file := f } w5
      | (some size, w5) => .done { l with file := f, sizeNum := size } w5

/-- The method `writeFile`, with `MaxLogFileSize` as `maxSize`. -/
def writeFile (maxSize : Int) (env : Env) (l : asyncFileLogger) (w : World) (buf : Bytes) :
    Outcome :=
  match (if (buf.length : Int) + l.sizeNum > maxSize then rotateLog env l w else .done l w) with
  | .panicked v l1 w1 => .panicked v l1 w1
  | .done l1 w1 =>
    match osWrite env.writeFail l1.file buf w1 with
    | (_, false, w2) => .panicked (.text "cannot write access log") l1 w2
    | (n, true, w2) => .done { l1 with sizeNum := l1.sizeNum + (n : Int) } w2

/-- One iteration of the `for` of `loop` when no close signal is pending: an
empty queue leaves everything as it is (the goroutine sleeps), otherwise the
head is written. -/
def loopIteration (maxSize : Int) (env : Env) (l : asyncFileLogger) (w : World) : Outcome :=
  match Dequeue l.queue with
  | none => .done l w
  | some (buf, rest) => writeFile maxSize env { l with queue := rest } w buf

/-- A step of the running system: a producer calls `Log`, or the goroutine of
`loop` runs one iteration.  `Log` only touches the queue, which is guarded by
its own lock, and an iteration takes the head of the queue atomically, so every
execution is such a sequence. -/
inductive Action
  | log (buf : Bytes)
  | iteration (env : Env)

/-- The logger and the world after a sequence of steps. -/
def run (maxSize : Int) : List Action → asyncFileLogger → World → Outcome
  | [], l, w => .done l w
  | .log buf :: rest, l, w => run maxSize rest (Log l buf).2 w
  | .iteration env :: rest, l, w =>
    match loopIteration maxSize env l w with
    | .done l1 w1 => run maxSize rest l1 w1
    | .panicked v l1 w1 => .panicked v l1 w1

/-- The `for` of `Close`: dequeue and write until `Dequeue` reports the empty
queue.  `envs i` is the environment of the `i`-th write.  `none` means that
`fuel` iterations did not reach the empty queue. -/
def drain (maxSize : Int) (envs : Nat → Env) :
    Nat → Nat → asyncFileLogger → World → Option Outcome
  | fuel, i, l, w =>
    match Dequeue l.queue with
    | none => some (.done l w)
    | some (buf, rest) =>
      match fuel with
      | 0 => none
      | fuel + 1 =>
        match writeFile maxSize (envs i) { l with queue := rest } w buf with
        | .done l1 w1 => drain maxSize envs fuel (i + 1) l1 w1
        | .panicked v l1 w1 => some (.panicked v l1 w1)

/-- How `Close` ends: it returns an error value (`none` for `nil`), or a write
of the drain panicked. -/
inductive CloseOutcome
  | returned (err : Option OSError) (l : asyncFileLogger) (w : World)
  | panicked (v : PanicValue) (l : asyncFileLogger) (w : World)

/-- The method `Close`, called once the goroutine of `loop` has taken the close
signal: drain the queue, then `Sync` (result dropped) and `Close` the file.
`fin` is the environment of the two last calls. -/
def Close (maxSize : Int) (envs : Nat → Env) (fin : Env) (fuel : Nat)
    (l : asyncFileLogger) (w : World) : Option CloseOutcome :=
  match drain maxSize envs fuel 0 l w with
  | none => none
  | some (.panicked v l1 w1) => some (.panicked v l1 w1)
  | some (.done l1 w1) =>
    let w2 := (osSync fin.syncOk l1.file w1).2
    match osClose fin.closeOk l1.file w2 with
    | (true, w3) => some (.returned none l1 w3)
    | (false, w3) => some (.returned (some .close) l1 w3)

/-! ## Observations on traces -/

/-- The names files were renamed to, in the order of the renames. -/
def rotatedNames : List Event → List String
  | [] => []
  | .rename _ newpath true :: es => newpath :: rotatedNames es
  | _ :: es => rotatedNames es

/-- The number of rotations started in a trace: each `rotateLog` issues exactly
one `os.Rename`. -/
def rotationCount : List Event → Nat
  | [] => 0
  | .rename _ _ _ :: es => rotationCount es + 1
  | _ :: es => rotationCount es

/-- The content of the file at `name` (empty when there is none). -/
def World.content (w : World) (name : String) : Bytes := (w.fs name).getD []

/-- The world a rotation without failure of rename, reopen and stat leaves. -/
def rotatedWorld (env : Env) (l : asyncFileLogger) (w : World) (c : Bytes) : World :=
  { fs := ((w.fs.set l.filename none).set (rotatedName l.filename env.now) (some c)).set
            l.filename (some []),
    trace := w.trace ++ [Event.sync l.file.name env.syncOk, Event.close l.file.name env.closeOk,
      Event.rename l.filename (rotatedName l.filename env.now) true,
      Event.openFile l.filename true, Event.stat l.filename true] }

/-- The size counter agrees with the file: the handle is the one opened at
`filename`, the file is there, and `sizeNum` is its length. -/
def SizeInvariant (l : asyncFileLogger) (w : World) : Prop :=
  l.file.name = l.filename ∧ ∃ c : Bytes, w.fs l.filename = some c ∧ l.sizeNum = (c.length : Int)

/-- The states of a logger that `newAsyncFileLogger` returned, after any number
of `Log` calls and of successful `writeFile`, `rotateLog`, loop iterations and
drains of `Close`. -/
inductive Reachable (maxSize : Int) : asyncFileLogger → World → Prop
  | init (env : Env) (cfgFilename : String) (w0 : World) (l : asyncFileLogger) :
      (newAsyncFileLogger env cfgFilename w0).1 = .ok l →
      Reachable maxSize l (newAsyncFileLogger env cfgFilename w0).2
  | log (l : asyncFileLogger) (w : World) (buf : Bytes) :
      Reachable maxSize l w → Reachable maxSize (Log l buf).2 w
  | write (env : Env) (l : asyncFileLogger) (w : World) (buf : Bytes)
      (l1 : asyncFileLogger) (w1 : World) :
      Reachable maxSize l w → writeFile maxSize env l w buf = .done l1 w1 →
      Reachable maxSize l1 w1
  | rotate (env : Env) (l : asyncFileLogger) (w : World) (l1 : asyncFileLogger) (w1 : World) :
      Reachable maxSize l w → rotateLog env l w = .done l1 w1 → Reachable maxSize l1 w1
  | iteration (env : Env) (l : asyncFileLogger) (w : World) (l1 : asyncFileLogger)
      (w1 : World) :
      Reachable maxSize l w → loopIteration maxSize env l w = .done l1 w1 →
      Reachable maxSize l1 w1
  | drained (envs : Nat → Env) (fuel i : Nat) (l : asyncFileLogger) (w : World)
      (l1 : asyncFileLogger) (w1 : World) :
      Reachable maxSize l w → drain maxSize envs fuel i l w = some (.done l1 w1) →
      Reachable maxSize l1 w1

/-- Whether the call recorded in an event succeeded. -/
def Event.ok : Event → Bool
  | .mkdirAll ok => ok
  | .openFile _ ok => ok
  | .stat _ ok => ok
  | .sync _ ok => ok
  | .close _ ok => ok
  | .rename _ _ ok => ok
  | .write _ _ ok => ok

/-- A time used in the examples: 2026-11-01 23:16:05. -/
def exampleTime : Time := ⟨2026, 11, 1, 23, 16, 5⟩

/-- A world used in the examples: the only file is `access.log`, holding `c`. -/
def exampleWorld (c : Bytes) : World :=
  { fs := fun p => if p = "access.log" then some c else none, trace := [] }

/-- A logger on `access.log` used in the examples. -/
def exampleLogger (queue : List Bytes) (sizeNum : Int) : asyncFileLogger :=
  { filename := "access.log", file := ⟨"access.log"⟩, queue := queue, sizeNum := sizeNum }

/-- A content of exactly `MaxLogFileSize` bytes. -/
def fullContent : Bytes := List.replicate 1887436800 0

/-- A record one byte longer than `MaxLogFileSize`. -/
def bigRecord : Bytes := List.replicate 1887436801 0

/-- A sequence of `writeFile` calls, one per record; `envs i` is the environment
of call number `i`.  A panic ends the sequence. -/
def writeFiles (maxSize : Int) (envs : Nat → Env) :
    Nat → List Bytes → asyncFileLogger → World → Outcome
  | _, [], l, w => .done l w
  | i, buf :: rest, l, w =>
    match writeFile maxSize (envs i) l w buf with
    | .done l1 w1 => writeFiles maxSize envs (i + 1) rest l1 w1
    | .panicked v l1 w1 => .panicked v l1 w1

/-- The events of writing the records `bufs` one after the other to `name`. -/
def writeEvents (name : String) (bufs : List Bytes) : List Event :=
  bufs.map fun b => Event.write name b true

/-! ## Basic facts about the model -/

theorem FS.set_same (fs : FS) (name : String) (v : Option Bytes) : (fs.set name v) name = v := by
  simp [FS.set]

theorem FS.set_other (fs : FS) (name p : String) (v : Option Bytes) (h : p ≠ name) :
    (fs.set name v) p = fs p := by
  simp [FS.set, h]

theorem rotatedName_ne (filename : String) (now : Time) : rotatedName filename now ≠ filename := by
  intro h
  have hlen := congrArg String.length h
  have h1 : "-".length = 1 := rfl
  simp only [rotatedName, String.length_append, h1] at hlen
  omega

theorem ne_rotatedName (filename : String) (now : Time) : filename ≠ rotatedName filename now :=
  fun h => rotatedName_ne filename now h.symm

theorem rotateLog_eq (env : Env) (l : asyncFileLogger) (w : World) (c : Bytes)
    (hr : env.renameOk = true) (ho : env.openOk = true) (hs : env.statOk = true)
    (hc : w.fs l.filename = some c) :
    rotateLog env l w =
      .done { l with file := ⟨l.filename⟩, sizeNum := 0 } (rotatedWorld env l w c) := by
  simp [rotateLog, osSync, osClose, osRename, openAppendFile, osOpenFile, osStat, hr, ho, hs, hc,
    FS.set, ne_rotatedName, rotatedWorld]

theorem writeFile_append_eq (maxSize : Int) (env : Env) (l : asyncFileLogger) (w : World)
    (buf c : Bytes) (hfit : ¬ ((buf.length : Int) + l.sizeNum > maxSize))
    (hw : env.writeFail = none) (hc : w.fs l.file.name = some c) :
    writeFile maxSize env l w buf =
      .done { l with sizeNum := l.sizeNum + (buf.length : Int) }
        { fs := w.fs.set l.file.name (some (c ++ buf)),
          trace := w.trace ++ [Event.write l.file.name buf true] } := by
  simp [writeFile, hfit, osWrite, hw, hc]

theorem writeFile_rotate_eq (maxSize : Int) (env : Env) (l : asyncFileLogger) (w : World)
    (buf c : Bytes) (hover : (buf.length : Int) + l.sizeNum > maxSize)
    (hr : env.renameOk = true) (ho : env.openOk = true) (hs : env.statOk = true)
    (hw : env.writeFail = none) (hc : w.fs l.filename = some c) :
    writeFile maxSize env l w buf =
      .done { l with file := ⟨l.filename⟩, sizeNum := (buf.length : Int) }
        { fs := (rotatedWorld env l w c).fs.set l.filename (some buf),
          trace := (rotatedWorld env l w c).trace ++ [Event.write l.filename buf true] } := by
  simp [writeFile, hover, rotateLog_eq env l w c hr ho hs hc, osWrite, hw, rotatedWorld,
    FS.set]

theorem digitChar_isDigit (d : Nat) : (digitChar d).isDigit = true := by
  have h : d % 10 < 10 := Nat.mod_lt _ (by decide)
  unfold digitChar
  generalize d % 10 = k at h
  interval_cases k <;> decide

theorem decimalDigits_isDigit (fuel n : Nat) :
    ∀ ch ∈ decimalDigits fuel n, ch.isDigit = true := by
  induction fuel generalizing n with
  | zero => intro ch hch; simp [decimalDigits] at hch; subst hch; exact digitChar_isDigit n
  | succ fuel ih =>
    intro ch hch
    unfold decimalDigits at hch
    split at hch
    · simp at hch; subst hch; exact digitChar_isDigit n
    · rcases List.mem_append.mp hch with h | h
      · exact ih _ ch h
      · simp at h; subst h; exact digitChar_isDigit _

theorem decimalDigits_length_le (k fuel n : Nat) (h : n < 10 ^ (k + 1)) :
    (decimalDigits fuel n).length ≤ k + 1 := by
  induction fuel generalizing n k with
  | zero => simp [decimalDigits]
  | succ fuel ih =>
    unfold decimalDigits
    split
    · simp
    · rename_i hn
      cases k with
      | zero => omega
      | succ k =>
        have h2 : n / 10 < 10 ^ (k + 1) := by
          rw [Nat.div_lt_iff_lt_mul (by decide)]
          calc n < 10 ^ (k + 1 + 1) := h
            _ = 10 ^ (k + 1) * 10 := by ring
        have := ih k (n / 10) h2
        simp
        omega

theorem appendInt_length (x k : Nat) (h : x < 10 ^ (k + 1)) :
    (appendInt x (k + 1)).length = k + 1 := by
  have := decimalDigits_length_le k x x h
  simp [appendInt]
  omega

theorem appendInt_isDigit (x width : Nat) : ∀ ch ∈ appendInt x width, ch.isDigit = true := by
  intro ch hch
  rcases List.mem_append.mp hch with h | h
  · rw [List.mem_replicate] at h
    rw [h.2]; decide
  · exact decimalDigits_isDigit x x ch h

theorem Format_length (t : Time) (h : t.wellFormed) : (Format20060102150405 t).length = 14 := by
  obtain ⟨hy, _, hmo, _, hd, hh, hmi, hs⟩ := h
  have e1 : (appendInt t.year 4).length = 4 := appendInt_length t.year 3 (by norm_num; omega)
  have e2 : (appendInt t.month 2).length = 2 := appendInt_length t.month 1 (by norm_num; omega)
  have e3 : (appendInt t.day 2).length = 2 := appendInt_length t.day 1 (by norm_num; omega)
  have e4 : (appendInt t.hour 2).length = 2 := appendInt_length t.hour 1 (by norm_num; omega)
  have e5 : (appendInt t.minute 2).length = 2 := appendInt_length t.minute 1 (by norm_num; omega)
  have e6 : (appendInt t.second 2).length = 2 := appendInt_length t.second 1 (by norm_num; omega)
  simp only [Format20060102150405, String.length, List.length_append]
  omega

theorem Format_isDigit (t : Time) : ∀ ch ∈ (Format20060102150405 t).data, ch.isDigit = true := by
  intro ch hch
  simp only [Format20060102150405, List.mem_append] at hch
  rcases hch with ((((h | h) | h) | h) | h) | h <;> exact appendInt_isDigit _ _ ch h

theorem rotateLog_done_inv (env : Env) (l : asyncFileLogger) (w : World)
    (l1 : asyncFileLogger) (w1 : World) (h : rotateLog env l w = .done l1 w1) :
    env.renameOk = true ∧ env.openOk = true ∧ env.statOk = true ∧
      ∃ c, w.fs l.filename = some c := by
  cases hr : env.renameOk <;> cases ho : env.openOk <;> cases hs : env.statOk <;>
    cases hc : w.fs l.filename <;>
    simp [rotateLog, osSync, osClose, osRename, openAppendFile, osOpenFile, osStat, hr, ho, hs,
      hc] at h ⊢

theorem writeFile_done_inv (maxSize : Int) (env : Env) (l : asyncFileLogger) (w : World)
    (buf : Bytes) (l1 : asyncFileLogger) (w1 : World)
    (h : writeFile maxSize env l w buf = .done l1 w1) :
    env.writeFail = none ∧
    ((¬ ((buf.length : Int) + l.sizeNum > maxSize) ∧ ∃ c, w.fs l.file.name = some c) ∨
     ((buf.length : Int) + l.sizeNum > maxSize ∧ env.renameOk = true ∧ env.openOk = true ∧
        env.statOk = true ∧ ∃ c, w.fs l.filename = some c)) := by
  by_cases hover : (buf.length : Int) + l.sizeNum > maxSize
  · cases hrot : rotateLog env l w with
    | panicked v l2 w2 => simp [writeFile, hover, hrot] at h
    | done l2 w2 =>
      obtain ⟨hr, ho, hs, c, hc⟩ := rotateLog_done_inv env l w l2 w2 hrot
      refine ⟨?_, Or.inr ⟨hover, hr, ho, hs, c, hc⟩⟩
      rw [rotateLog_eq env l w c hr ho hs hc] at hrot
      cases hw : env.writeFail with
      | none => rfl
      | some k =>
        simp [writeFile, hover, rotateLog_eq env l w c hr ho hs hc, osWrite, hw, rotatedWorld,
          FS.set] at h
  · cases hc : w.fs l.file.name with
    | none => simp [writeFile, hover, osWrite, hc] at h
    | some c =>
      cases hw : env.writeFail with
      | none => exact ⟨rfl, Or.inl ⟨hover, c, rfl⟩⟩
      | some k => simp [writeFile, hover, osWrite, hc, hw] at h

theorem newAsyncFileLogger_eq (env : Env) (path : String) (w : World) (c : Bytes)
    (hm : env.mkdirOk = true) (ho : env.openOk = true) (hs : env.statOk = true)
    (hc : w.fs path = some c) :
    newAsyncFileLogger env path w =
      (.ok { filename := path, file := ⟨path⟩, queue := [], sizeNum := (c.length : Int) },
       { fs := w.fs,
         trace := w.trace ++ [Event.mkdirAll true, Event.openFile path true,
           Event.stat path true] }) := by
  simp [newAsyncFileLogger, osMkdirAll, openAppendFile, osOpenFile, osStat, hm, ho, hs, hc]

theorem newAsyncFileLogger_ok_inv (env : Env) (path : String) (w : World) (l : asyncFileLogger)
    (h : (newAsyncFileLogger env path w).1 = .ok l) :
    env.mkdirOk = true ∧ env.openOk = true ∧ env.statOk = true := by
  cases hm : env.mkdirOk <;> cases ho : env.openOk <;> cases hs : env.statOk <;>
    cases hc : w.fs path <;>
    simp [newAsyncFileLogger, osMkdirAll, openAppendFile, osOpenFile, osStat, hm, ho, hs, hc,
      FS.set] at h ⊢

theorem newAsyncFileLogger_invariant (env : Env) (path : String) (w : World)
    (l : asyncFileLogger) (h : (newAsyncFileLogger env path w).1 = .ok l) :
    SizeInvariant l (newAsyncFileLogger env path w).2 := by
  obtain ⟨hm, ho, hs⟩ := newAsyncFileLogger_ok_inv env path w l h
  cases hc : w.fs path with
  | some c =>
    rw [newAsyncFileLogger_eq env path w c hm ho hs hc] at h ⊢
    simp at h
    subst h
    exact ⟨rfl, c, hc, rfl⟩
  | none =>
    simp [newAsyncFileLogger, osMkdirAll, openAppendFile, osOpenFile, osStat, hm, ho, hs, hc,
      FS.set] at h ⊢
    subst h
    simp [SizeInvariant, FS.set]

theorem rotateLog_invariant (env : Env) (l : asyncFileLogger) (w : World)
    (l1 : asyncFileLogger) (w1 : World) (h : rotateLog env l w = .done l1 w1) :
    SizeInvariant l1 w1 ∧ l1.queue = l.queue ∧ l1.filename = l.filename := by
  obtain ⟨hr, ho, hs, c, hc⟩ := rotateLog_done_inv env l w l1 w1 h
  rw [rotateLog_eq env l w c hr ho hs hc] at h
  simp only [Outcome.done.injEq] at h
  obtain ⟨rfl, rfl⟩ := h
  simp [SizeInvariant, rotatedWorld, FS.set]

theorem writeFile_invariant (maxSize : Int) (env : Env) (l : asyncFileLogger) (w : World)
    (buf : Bytes) (l1 : asyncFileLogger) (w1 : World) (hinv : SizeInvariant l w)
    (h : writeFile maxSize env l w buf = .done l1 w1) :
    SizeInvariant l1 w1 ∧ l1.queue = l.queue ∧ l1.filename = l.filename := by
  obtain ⟨hname, c, hc, hsz⟩ := hinv
  obtain ⟨hw, ⟨hfit, _⟩ | ⟨hover, hr, ho, hs, _⟩⟩ := writeFile_done_inv maxSize env l w buf l1 w1 h
  · rw [writeFile_append_eq maxSize env l w buf c hfit hw (hname ▸ hc)] at h
    simp only [Outcome.done.injEq] at h
    obtain ⟨rfl, rfl⟩ := h
    simp [SizeInvariant, FS.set, hname, hsz]
  · rw [writeFile_rotate_eq maxSize env l w buf c hover hr ho hs hw hc] at h
    simp only [Outcome.done.injEq] at h
    obtain ⟨rfl, rfl⟩ := h
    simp [SizeInvariant, FS.set]

theorem loopIteration_invariant (maxSize : Int) (env : Env) (l : asyncFileLogger) (w : World)
    (l1 : asyncFileLogger) (w1 : World) (hinv : SizeInvariant l w)
    (h : loopIteration maxSize env l w = .done l1 w1) : SizeInvariant l1 w1 := by
  cases hq : l.queue with
  | nil =>
    simp [loopIteration, Dequeue, hq] at h
    obtain ⟨rfl, rfl⟩ := h
    exact hinv
  | cons b rest =>
    simp [loopIteration, Dequeue, hq] at h
    exact (writeFile_invariant maxSize env { l with queue := rest } w b l1 w1 hinv h).1

theorem drain_nil (maxSize : Int) (envs : Nat → Env) (fuel i : Nat) (l : asyncFileLogger)
    (w : World) (hq : l.queue = []) : drain maxSize envs fuel i l w = some (.done l w) := by
  unfold drain
  simp [Dequeue, hq]

theorem drain_zero_cons (maxSize : Int) (envs : Nat → Env) (i : Nat) (l : asyncFileLogger)
    (w : World) (b : Bytes) (rest : List Bytes) (hq : l.queue = b :: rest) :
    drain maxSize envs 0 i l w = none := by
  unfold drain
  simp [Dequeue, hq]

theorem drain_succ_cons (maxSize : Int) (envs : Nat → Env) (fuel i : Nat) (l : asyncFileLogger)
    (w : World) (b : Bytes) (rest : List Bytes) (hq : l.queue = b :: rest) :
    drain maxSize envs (fuel + 1) i l w =
      match writeFile maxSize (envs i) { l with queue := rest } w b with
      | .done l1 w1 => drain maxSize envs fuel (i + 1) l1 w1
      | .panicked v l1 w1 => some (.panicked v l1 w1) := by
  rw [drain]
  simp [Dequeue, hq]

theorem drain_invariant (maxSize : Int) (envs : Nat → Env) (fuel i : Nat) (l : asyncFileLogger)
    (w : World) (l1 : asyncFileLogger) (w1 : World) (hinv : SizeInvariant l w)
    (h : drain maxSize envs fuel i l w = some (.done l1 w1)) : SizeInvariant l1 w1 := by
  induction fuel generalizing i l w with
  | zero =>
    cases hq : l.queue with
    | nil =>
      rw [drain_nil maxSize envs 0 i l w hq] at h
      simp at h
      obtain ⟨rfl, rfl⟩ := h
      exact hinv
    | cons b rest => simp [drain_zero_cons maxSize envs i l w b rest hq] at h
  | succ fuel ih =>
    cases hq : l.queue with
    | nil =>
      rw [drain_nil maxSize envs _ i l w hq] at h
      simp at h
      obtain ⟨rfl, rfl⟩ := h
      exact hinv
    | cons b rest =>
      rw [drain_succ_cons maxSize envs fuel i l w b rest hq] at h
      cases hwf : writeFile maxSize (envs i) { l with queue := rest } w b with
      | panicked v l2 w2 => simp [hwf] at h
      | done l2 w2 =>
        simp only [hwf] at h
        exact ih (i + 1) l2 w2
          (writeFile_invariant maxSize (envs i) { l with queue := rest } w b l2 w2 hinv hwf).1 h

theorem reachable_invariant (maxSize : Int) (l : asyncFileLogger) (w : World)
    (h : Reachable maxSize l w) : SizeInvariant l w := by
  induction h with
  | init env path w0 l hl => exact newAsyncFileLogger_invariant env path w0 l hl
  | log l w buf _ ih => exact ih
  | write env l w buf l1 w1 _ hw ih => exact (writeFile_invariant maxSize env l w buf l1 w1 ih hw).1
  | rotate env l w l1 w1 _ hr _ => exact (rotateLog_invariant env l w l1 w1 hr).1
  | iteration env l w l1 w1 _ hi ih => exact loopIteration_invariant maxSize env l w l1 w1 ih hi
  | drained envs fuel i l w l1 w1 _ hd ih => exact drain_invariant maxSize envs fuel i l w l1 w1 ih hd

theorem fullContent_length : fullContent.length = 1887436800 :=
  List.length_replicate 1887436800 (0 : UInt8)

theorem bigRecord_length : bigRecord.length = 1887436801 :=
  List.length_replicate 1887436801 (0 : UInt8)

theorem rotationCount_append (a b : List Event) :
    rotationCount (a ++ b) = rotationCount a + rotationCount b := by
  induction a with
  | nil => simp [rotationCount]
  | cons e es ih =>
    cases e <;> (simp [rotationCount, ih]; try omega)

theorem rotatedNames_append (a b : List Event) :
    rotatedNames (a ++ b) = rotatedNames a ++ rotatedNames b := by
  induction a with
  | nil => simp [rotatedNames]
  | cons e es ih =>
    cases e with
    | rename o n ok => cases ok <;> simp [rotatedNames, ih]
    | _ => simp [rotatedNames, ih]

theorem rotationCount_writeEvents (name : String) (bufs : List Bytes) :
    rotationCount (writeEvents name bufs) = 0 := by
  induction bufs with
  | nil => rfl
  | cons b bs ih => simpa [writeEvents, rotationCount] using ih

/-- Writing records that fit below the threshold appends them, without rotation. -/
theorem writeFiles_fit (maxSize : Int) (envs : Nat → Env) (bufs : List Bytes) :
    ∀ (i : Nat) (l : asyncFileLogger) (w : World) (c : Bytes),
      w.fs l.file.name = some c → (∀ j, (envs j).writeFail = none) →
      l.sizeNum + (bufs.flatten.length : Int) ≤ maxSize →
      ∃ w1 : World,
        writeFiles maxSize envs i bufs l w =
          .done { l with sizeNum := l.sizeNum + (bufs.flatten.length : Int) } w1 ∧
        w1.fs l.file.name = some (c ++ bufs.flatten) ∧
        (∀ p, p ≠ l.file.name → w1.fs p = w.fs p) ∧
        w1.trace = w.trace ++ writeEvents l.file.name bufs := by
  induction bufs with
  | nil =>
    intro i l w c hc _ _
    exact ⟨w, by simp [writeFiles], by simpa using hc, fun _ _ => rfl, by simp [writeEvents]⟩
  | cons b bs ih =>
    intro i l w c hc hio hfit
    simp only [List.flatten_cons, List.length_append, Nat.cast_add] at hfit
    have hb : ¬ ((b.length : Int) + l.sizeNum > maxSize) := by
      have : (0 : Int) ≤ (bs.flatten.length : Int) := Int.ofNat_nonneg _
      omega
    obtain ⟨w1, h1, h2, h3, h4⟩ := ih (i + 1)
      { l with sizeNum := l.sizeNum + (b.length : Int) }
      { fs := w.fs.set l.file.name (some (c ++ b)),
        trace := w.trace ++ [Event.write l.file.name b true] } (c ++ b)
      (by simp [FS.set]) hio (by simp only; omega)
    refine ⟨w1, ?_, ?_, ?_, ?_⟩
    · simp only [writeFiles, writeFile_append_eq maxSize (envs i) l w b c hb (hio i) hc, h1]
      simp only [List.flatten_cons, List.length_append, Nat.cast_add, Outcome.done.injEq,
        and_true]
      congr 1
      omega
    · simpa using h2
    · intro p hp
      rw [h3 p hp]
      simp [FS.set, hp]
    · simpa [writeEvents] using h4

theorem writeFiles_append (maxSize : Int) (envs : Nat → Env) (pre post : List Bytes) :
    ∀ (i : Nat) (l : asyncFileLogger) (w : World),
      writeFiles maxSize envs i (pre ++ post) l w =
        match writeFiles maxSize envs i pre l w with
        | .done l1 w1 => writeFiles maxSize envs (i + pre.length) post l1 w1
        | .panicked v l1 w1 => .panicked v l1 w1 := by
  induction pre with
  | nil => intro i l w; simp [writeFiles]
  | cons b bs ih =>
    intro i l w
    simp only [List.cons_append, writeFiles, List.length_cons]
    cases hwf : writeFile maxSize (envs i) l w b with
    | panicked v l1 w1 => rfl
    | done l1 w1 =>
      have hidx : i + (bs.length + 1) = i + 1 + bs.length := by omega
      rw [hidx]
      exact ih (i + 1) l1 w1

/-- The drain of `Close` when no call fails: it ends on the empty queue; files
other than the one at `filename` and the rotated ones are untouched; and when the
rotated names are pairwise distinct, the rotated files in order followed by the
file at `filename` hold the old content followed by the queued records. -/
theorem drain_spec (maxSize : Int) (envs : Nat → Env) (q : List Bytes) :
    ∀ (fuel i : Nat) (l : asyncFileLogger) (w : World) (c : Bytes),
      l.queue = q → q.length ≤ fuel → l.file.name = l.filename →
      w.fs l.filename = some c → (∀ j, (envs j).noFail) →
      ∃ (l1 : asyncFileLogger) (w1 : World) (evs : List Event),
        drain maxSize envs fuel i l w = some (.done l1 w1) ∧
        l1.queue = [] ∧ l1.filename = l.filename ∧ l1.file.name = l.filename ∧
        w1.trace = w.trace ++ evs ∧
        (∀ p, p ≠ l.filename → p ∉ rotatedNames evs → w1.fs p = w.fs p) ∧
        ((rotatedNames evs).Nodup →
          ((rotatedNames evs).map w1.content).flatten ++ w1.content l.filename =
            c ++ q.flatten) := by
  induction q with
  | nil =>
    intro fuel i l w c hq _ _ hc _
    refine ⟨l, w, [], drain_nil maxSize envs fuel i l w hq, hq, rfl, ‹_›, by simp,
      fun _ _ _ => rfl, ?_⟩
    intro _
    simp [rotatedNames, World.content, hc]
  | cons b rest ih =>
    intro fuel i l w c hq hfuel hname hc hio
    obtain ⟨_, ho, hs, hsy, hcl, hr, hw⟩ := hio i
    cases fuel with
    | zero => simp at hfuel
    | succ fuel =>
      simp only [List.length_cons, Nat.add_le_add_iff_right] at hfuel
      rw [drain_succ_cons maxSize envs fuel i l w b rest hq]
      by_cases hover : (b.length : Int) + l.sizeNum > maxSize
      · have hstep := writeFile_rotate_eq maxSize (envs i) { l with queue := rest } w b c
          hover hr ho hs hw hc
        have hne : rotatedName l.filename (envs i).now ≠ l.filename := rotatedName_ne _ _
        obtain ⟨l1, w1, evs, h1, h2, h3, h4, h5, h6, h7⟩ := ih fuel (i + 1)
          { l with queue := rest, file := ⟨l.filename⟩, sizeNum := (b.length : Int) }
          { fs := (rotatedWorld (envs i) { l with queue := rest } w c).fs.set l.filename
              (some b),
            trace := (rotatedWorld (envs i) { l with queue := rest } w c).trace ++
              [Event.write l.filename b true] } b rfl hfuel rfl (by simp [FS.set]) hio
        have hnames : ∀ es, rotatedNames
            ([Event.sync l.file.name (envs i).syncOk, Event.close l.file.name (envs i).closeOk,
              Event.rename l.filename (rotatedName l.filename (envs i).now) true,
              Event.openFile l.filename true, Event.stat l.filename true,
              Event.write l.filename b true] ++ es) =
            rotatedName l.filename (envs i).now :: rotatedNames es := by
          intro es
          rw [rotatedNames_append]
          rfl
        refine ⟨l1, w1,
          [Event.sync l.file.name (envs i).syncOk, Event.close l.file.name (envs i).closeOk,
            Event.rename l.filename (rotatedName l.filename (envs i).now) true,
            Event.openFile l.filename true, Event.stat l.filename true,
            Event.write l.filename b true] ++ evs, ?_, h2, h3, h4, ?_, ?_, ?_⟩
        · simp only [hstep]
          exact h1
        · rw [h5]
          simp [rotatedWorld]
        · intro p hp hnot
          simp only [hnames, List.mem_cons, not_or] at hnot
          rw [h6 p hp hnot.2]
          simp [rotatedWorld, FS.set, hp, hnot.1]
        · intro hnd
          simp only [hnames, List.nodup_cons] at hnd ⊢
          have hdst : w1.content (rotatedName l.filename (envs i).now) = c := by
            have := h6 _ hne hnd.1
            simp only [World.content, this]
            simp [rotatedWorld, FS.set, hne]
          have := h7 hnd.2
          simp only at this
          simp only [List.map_cons, List.flatten_cons, hdst, List.append_assoc, this]
      · have hstep := writeFile_append_eq maxSize (envs i) { l with queue := rest } w b c
          hover hw (hname ▸ hc)
        obtain ⟨l1, w1, evs, h1, h2, h3, h4, h5, h6, h7⟩ := ih fuel (i + 1)
          { l with queue := rest, sizeNum := l.sizeNum + (b.length : Int) }
          { fs := w.fs.set l.file.name (some (c ++ b)),
            trace := w.trace ++ [Event.write l.file.name b true] } (c ++ b) rfl hfuel hname
          (by simp [FS.set, hname]) hio
        refine ⟨l1, w1, Event.write l.file.name b true :: evs, ?_, h2, h3, h4, ?_, ?_, ?_⟩
        · simp only [hstep]
          exact h1
        · rw [h5]
          simp
        · intro p hp hnot
          simp only [rotatedNames] at hnot
          rw [h6 p hp hnot]
          simp [FS.set, hname, hp]
        · intro hnd
          simp only [rotatedNames] at hnd ⊢
          have := h7 hnd
          simp only at this
          rw [this]
          simp

/-- A drain of two records each of which triggers a rotation, both rotations in
the same second: the second rename replaces the file the first one left. -/
theorem drain_two_rotations (maxSize : Int) (env : Env) (l : asyncFileLogger) (w : World)
    (c b1 b2 : Bytes) (hq : l.queue = [b1, b2]) (hc : w.fs l.filename = some c)
    (hio : env.noFail) (h1 : (b1.length : Int) + l.sizeNum > maxSize)
    (h2 : (b2.length : Int) + (b1.length : Int) > maxSize) :
    ∃ (l1 : asyncFileLogger) (w1 : World),
      drain maxSize (fun _ => env) 2 0 l w = some (.done l1 w1) ∧
      l1.queue = [] ∧ l1.file.name = l.filename ∧
      rotatedNames w1.trace = rotatedNames w.trace ++
        [rotatedName l.filename env.now, rotatedName l.filename env.now] ∧
      w1.fs (rotatedName l.filename env.now) = some b1 ∧
      w1.fs l.filename = some b2 ∧
      ∀ p, p ≠ l.filename → p ≠ rotatedName l.filename env.now → w1.fs p = w.fs p := by
  obtain ⟨_, ho, hs, _, _, hr, hw⟩ := hio
  have hne : rotatedName l.filename env.now ≠ l.filename := rotatedName_ne _ _
  have s1 := writeFile_rotate_eq maxSize env { l with queue := [b2] } w b1 c h1 hr ho hs hw hc
  have s2 := writeFile_rotate_eq maxSize env
    { l with queue := [], file := ⟨l.filename⟩, sizeNum := (b1.length : Int) }
    { fs := (rotatedWorld env { l with queue := [b2] } w c).fs.set l.filename (some b1),
      trace := (rotatedWorld env { l with queue := [b2] } w c).trace ++
        [Event.write l.filename b1 true] } b2 b1 h2 hr ho hs hw (by simp [FS.set])
  have hd : drain maxSize (fun _ => env) 2 0 l w = some (.done
      { l with queue := [], file := ⟨l.filename⟩, sizeNum := (b2.length : Int) }
      { fs := (rotatedWorld env
                { l with queue := [], file := ⟨l.filename⟩, sizeNum := (b1.length : Int) }
                { fs := (rotatedWorld env { l with queue := [b2] } w c).fs.set l.filename
                    (some b1),
                  trace := (rotatedWorld env { l with queue := [b2] } w c).trace ++
                    [Event.write l.filename b1 true] } b1).fs.set l.filename (some b2),
        trace := (rotatedWorld env
                { l with queue := [], file := ⟨l.filename⟩, sizeNum := (b1.length : Int) }
                { fs := (rotatedWorld env { l with queue := [b2] } w c).fs.set l.filename
                    (some b1),
                  trace := (rotatedWorld env { l with queue := [b2] } w c).trace ++
                    [Event.write l.filename b1 true] } b1).trace ++
            [Event.write l.filename b2 true] }) := by
    rw [drain_succ_cons maxSize _ 1 0 l w b1 [b2] hq]
    simp only [s1]
    rw [drain_succ_cons maxSize _ 0 1 _ _ b2 [] rfl]
    simp only [s2]
    rw [drain_nil maxSize _ 0 2 _ _ rfl]
  refine ⟨_, _, hd, rfl, rfl, ?_, ?_, ?_, ?_⟩
  · simp [rotatedWorld, rotatedNames_append, rotatedNames]
  · simp [rotatedWorld, FS.set, hne]
  · simp [rotatedWorld, FS.set]
  · intro p hp1 hp2
    simp [rotatedWorld, FS.set, hp1, hp2]

/-- `Close` on a queue of two records each of which triggers a rotation, both
rotations in the same second. -/
theorem Close_two_rotations (maxSize : Int) (env : Env) (l : asyncFileLogger) (w : World)
    (c b1 b2 : Bytes) (hq : l.queue = [b1, b2]) (hc : w.fs l.filename = some c)
    (hio : env.noFail) (h1 : (b1.length : Int) + l.sizeNum > maxSize)
    (h2 : (b2.length : Int) + (b1.length : Int) > maxSize) :
    ∃ (l1 : asyncFileLogger) (w1 : World),
      Close maxSize (fun _ => env) env 2 l w = some (.returned none l1 w1) ∧
      l1.queue = [] ∧
      rotatedNames w1.trace = rotatedNames w.trace ++
        [rotatedName l.filename env.now, rotatedName l.filename env.now] ∧
      w1.fs (rotatedName l.filename env.now) = some b1 ∧
      w1.fs l.filename = some b2 ∧
      ∀ p, p ≠ l.filename → p ≠ rotatedName l.filename env.now → w1.fs p = w.fs p := by
  obtain ⟨l1, w1, hd, hq1, _, hnames, hrot, hact, hframe⟩ :=
    drain_two_rotations maxSize env l w c b1 b2 hq hc hio h1 h2
  obtain ⟨_, _, _, hsy, hcl, _, _⟩ := hio
  refine ⟨l1, { w1 with trace := w1.trace ++
      [Event.sync l1.file.name true, Event.close l1.file.name true] }, ?_, hq1, ?_, hrot, hact,
    hframe⟩
  · simp only [Close, hd]
    simp [osSync, osClose, hsy, hcl]
  · simp [rotatedNames_append, rotatedNames, hnames]

/-- When the same name was rotated to twice and the file there holds the second
content `big`, the rotated files followed by the active file differ from the
bytes before the drain followed by the records. -/
theorem collision_bytes_ne (w1 : World) (a d : String) (c big b2 : Bytes)
    (hrot : w1.fs d = some big) (hact : w1.fs a = some b2) (hlen : c.length ≠ big.length) :
    ([d, d].map w1.content).flatten ++ w1.content a ≠ c ++ [big, b2].flatten := by
  intro h
  have hl := congrArg List.length h
  simp [World.content, hrot, hact] at hl
  omega

/-! ## The claims -/

/-- C9. `Log` returns no error, puts the record at the tail of the queue and
changes neither the file handle, the file name nor the size counter; the world
(the files and their content) is not even an argument of `Log`, and a run made of
`Log` calls leaves it as it was.  `QueueBufferSize` is the number of records
waiting in the queue: after a `Log` it is the previous number plus one, and after
any number of `Log` calls with no dequeue in between it is the number of records
not yet dequeued, which are the old ones followed by the new ones. -/
theorem Log_enqueues_and_QueueBufferSize (maxSize : Int) (l : asyncFileLogger) (w : World)
    (buf : Bytes) (bufs : List Bytes) :
    (Log l buf).1 = none ∧
    (Log l buf).2.queue = l.queue ++ [buf] ∧
    (Log l buf).2.filename = l.filename ∧
    (Log l buf).2.file = l.file ∧
    (Log l buf).2.sizeNum = l.sizeNum ∧
    QueueBufferSize l = l.queue.length ∧
    QueueBufferSize (Log l buf).2 = l.queue.length + 1 ∧
    QueueBufferSize (Log l buf).2 = (Log l buf).2.queue.length ∧
    QueueBufferSize (Log l buf).2 = QueueBufferSize l + 1 ∧
    (run maxSize (bufs.map Action.log) l w).isDone = true ∧
    (run maxSize (bufs.map Action.log) l w).world.fs = w.fs ∧
    (run maxSize (bufs.map Action.log) l w).world.trace = w.trace ∧
    (run maxSize (bufs.map Action.log) l w).logger.queue = l.queue ++ bufs ∧
    (run maxSize (bufs.map Action.log) l w).logger.sizeNum = l.sizeNum ∧
    (run maxSize (bufs.map Action.log) l w).logger.file = l.file ∧
    QueueBufferSize (run maxSize (bufs.map Action.log) l w).logger =
      QueueBufferSize l + bufs.length ∧
    QueueBufferSize (run maxSize (bufs.map Action.log) l w).logger =
      l.queue.length + bufs.length ∧
    QueueBufferSize (run maxSize (bufs.map Action.log) l w).logger =
      (run maxSize (bufs.map Action.log) l w).logger.queue.length := by
  have key : ∀ (bs : List Bytes) (l0 : asyncFileLogger),
      run maxSize (bs.map Action.log) l0 w = .done { l0 with queue := l0.queue ++ bs } w := by
    intro bs
    induction bs with
    | nil => intro l0; simp [run]
    | cons b bs ih => intro l0; simp [run, ih, Log, Enqueue]
  simp [key, Log, Enqueue, QueueBufferSize, GetLen, Outcome.isDone, Outcome.world,
    Outcome.logger]

/-- C9 at a concrete input: one record is waiting, `Log` is called on `[4]` and
then on `[5, 6]`; `QueueBufferSize` is 2 after the first call and 3 after both,
and the queue holds the three records in order. -/
theorem Log_enqueues_and_QueueBufferSize_witness :
    QueueBufferSize (exampleLogger [[3]] 0) = 1 ∧
    QueueBufferSize (Log (exampleLogger [[3]] 0) [4]).2 = 2 ∧
    QueueBufferSize (run MaxLogFileSize ([[4], [5, 6]].map Action.log)
      (exampleLogger [[3]] 0) (exampleWorld [])).logger = 3 ∧
    (run MaxLogFileSize ([[4], [5, 6]].map Action.log)
      (exampleLogger [[3]] 0) (exampleWorld [])).logger.queue = [[3], [4], [5, 6]] :=
  have h := Log_enqueues_and_QueueBufferSize MaxLogFileSize (exampleLogger [[3]] 0)
    (exampleWorld []) [4] [[4], [5, 6]]
  ⟨h.2.2.2.2.2.1, h.2.2.2.2.2.2.1, h.2.2.2.2.2.2.2.2.2.2.2.2.2.2.2.2.1,
    h.2.2.2.2.2.2.2.2.2.2.2.2.1⟩

/-- C4. After a `rotateLog` in which no call fails, on a logger whose file at
`filename` holds `c`: the call returns; the file `filename-<timestamp>` holds
exactly `c`, the timestamp being 14 decimal digits; the file at `filename` exists
and is empty; the size counter is the length of that new file, that is 0. -/
theorem rotateLog_renames (env : Env) (l : asyncFileLogger) (w : World) (c : Bytes)
    (hio : env.noFail) (ht : env.now.wellFormed) (hc : w.fs l.filename = some c) :
    (rotateLog env l w).isDone = true ∧
    (Format20060102150405 env.now).length = 14 ∧
    (∀ ch ∈ (Format20060102150405 env.now).data, ch.isDigit = true) ∧
    (rotateLog env l w).world.fs (l.filename ++ "-" ++ Format20060102150405 env.now) = some c ∧
    (rotateLog env l w).world.fs l.filename = some [] ∧
    (rotateLog env l w).logger.filename = l.filename ∧
    (rotateLog env l w).logger.file.name = l.filename ∧
    ((rotateLog env l w).logger.sizeNum : Int) =
      (((rotateLog env l w).world.content l.filename).length : Int) ∧
    (rotateLog env l w).logger.sizeNum = 0 := by
  obtain ⟨_, ho, hs, _, _, hr, _⟩ := hio
  have hne : l.filename ++ "-" ++ Format20060102150405 env.now ≠ l.filename :=
    rotatedName_ne l.filename env.now
  rw [rotateLog_eq env l w c hr ho hs hc]
  refine ⟨rfl, Format_length _ ht, Format_isDigit _, ?_, ?_, rfl, rfl, ?_, rfl⟩
  · simp [Outcome.world, rotatedWorld, FS.set, rotatedName, hne]
  · simp [Outcome.world, rotatedWorld, FS.set]
  · simp [Outcome.world, Outcome.logger, rotatedWorld, FS.set, World.content]

/-- A run of C4: rotating `access.log` holding three bytes at 2026-11-01 23:16:05. -/
theorem rotateLog_renames_witness :
    (rotateLog (Env.allOk ⟨2026, 11, 1, 23, 16, 5⟩)
        { filename := "access.log", file := ⟨"access.log"⟩, queue := [], sizeNum := 3 }
        { fs := fun p => if p = "access.log" then some [1, 2, 3] else none,
          trace := [] }).world.fs "access.log-20261101231605" = some [1, 2, 3] :=
  (rotateLog_renames (Env.allOk ⟨2026, 11, 1, 23, 16, 5⟩)
    { filename := "access.log", file := ⟨"access.log"⟩, queue := [], sizeNum := 3 }
    { fs := fun p => if p = "access.log" then some [1, 2, 3] else none, trace := [] }
    [1, 2, 3] (by decide) (by decide) (by decide)).2.2.2.1

/-- C5. On a path with a file holding `c` (of any length `M`, in particular
`M > 0`), a logger that `newAsyncFileLogger` returns has `sizeNum = M`, and the
file still holds `c`; when no call fails a logger is returned.  A `writeFile` of
a record `buf` with `M + S ≤ MaxLogFileSize` whose write does not fail then
returns with the file holding `c ++ buf` (length `M + S`, the first `M` bytes
being `c`) and `sizeNum = M + S`. -/
theorem newAsyncFileLogger_resumes (env : Env) (path : String) (w : World) (c : Bytes)
    (hc : w.fs path = some c) :
    (env.noFail → ∃ l, (newAsyncFileLogger env path w).1 = .ok l) ∧
    ∀ l, (newAsyncFileLogger env path w).1 = .ok l →
      l.filename = path ∧ l.file.name = path ∧ l.queue = [] ∧
      l.sizeNum = (c.length : Int) ∧
      (newAsyncFileLogger env path w).2.fs path = some c ∧
      ∀ (env1 : Env) (buf : Bytes), env1.writeFail = none →
        (c.length : Int) + (buf.length : Int) ≤ MaxLogFileSize →
        (writeFile MaxLogFileSize env1 l (newAsyncFileLogger env path w).2 buf).isDone = true ∧
        (writeFile MaxLogFileSize env1 l (newAsyncFileLogger env path w).2 buf).world.fs path =
          some (c ++ buf) ∧
        (c ++ buf).length = c.length + buf.length ∧
        (c ++ buf).take c.length = c ∧
        (writeFile MaxLogFileSize env1 l (newAsyncFileLogger env path w).2 buf).logger.sizeNum =
          (c.length : Int) + (buf.length : Int) := by
  constructor
  · intro hio
    obtain ⟨hm, ho, hs, _⟩ := hio
    exact ⟨_, by rw [newAsyncFileLogger_eq env path w c hm ho hs hc]⟩
  · intro l hl
    obtain ⟨hm, ho, hs⟩ := newAsyncFileLogger_ok_inv env path w l hl
    rw [newAsyncFileLogger_eq env path w c hm ho hs hc] at hl ⊢
    simp only [Except.ok.injEq] at hl
    subst hl
    refine ⟨rfl, rfl, rfl, rfl, hc, ?_⟩
    intro env1 buf hw hfit
    rw [writeFile_append_eq MaxLogFileSize env1 _ _ buf c (by simp only; omega) hw hc]
    simp [Outcome.isDone, Outcome.world, Outcome.logger, FS.set]

/-- A run of C5: a logger built on a file of three bytes. -/
theorem newAsyncFileLogger_resumes_witness :
    ∃ l, (newAsyncFileLogger (Env.allOk ⟨2026, 11, 1, 23, 16, 5⟩) "access.log"
      { fs := fun p => if p = "access.log" then some [1, 2, 3] else none, trace := [] }).1 =
        .ok l :=
  (newAsyncFileLogger_resumes (Env.allOk ⟨2026, 11, 1, 23, 16, 5⟩) "access.log"
    { fs := fun p => if p = "access.log" then some [1, 2, 3] else none, trace := [] }
    [1, 2, 3] (by decide)).1 (by decide)

/-- C6. In every state reachable from `newAsyncFileLogger` by `Log` calls and
successful `writeFile`, `rotateLog`, loop iterations and drains of `Close`, the
handle is the file at `filename`, that file exists, and `sizeNum` is its length.
A successful `writeFile` from such a state ends with the write of the record to
that file and raises the counter (reset to 0 when the call rotated first) by the
length of the record. -/
theorem sizeNum_is_file_length (maxSize : Int) (l : asyncFileLogger) (w : World)
    (h : Reachable maxSize l w) :
    l.file.name = l.filename ∧
    (∃ c : Bytes, w.fs l.filename = some c ∧ l.sizeNum = (c.length : Int)) ∧
    ∀ (env : Env) (buf : Bytes) (l1 : asyncFileLogger) (w1 : World),
      writeFile maxSize env l w buf = .done l1 w1 →
      w1.trace.getLast? = some (Event.write l.filename buf true) ∧
      l1.sizeNum =
        (if (buf.length : Int) + l.sizeNum > maxSize then 0 else l.sizeNum) +
          (buf.length : Int) ∧
      ∃ c1 : Bytes, w1.fs l1.filename = some c1 ∧ l1.sizeNum = (c1.length : Int) := by
  have hinv := reachable_invariant maxSize l w h
  refine ⟨hinv.1, hinv.2, ?_⟩
  intro env buf l1 w1 hwf
  have hinv1 := (writeFile_invariant maxSize env l w buf l1 w1 hinv hwf).1
  obtain ⟨hname, c, hc, hsz⟩ := hinv
  obtain ⟨hw, ⟨hfit, _⟩ | ⟨hover, hr, ho, hs, _⟩⟩ :=
    writeFile_done_inv maxSize env l w buf l1 w1 hwf
  · rw [writeFile_append_eq maxSize env l w buf c hfit hw (hname ▸ hc)] at hwf
    simp only [Outcome.done.injEq] at hwf
    obtain ⟨rfl, rfl⟩ := hwf
    exact ⟨by simp [hname], by simp [hfit], hinv1.2⟩
  · rw [writeFile_rotate_eq maxSize env l w buf c hover hr ho hs hw hc] at hwf
    simp only [Outcome.done.injEq] at hwf
    obtain ⟨rfl, rfl⟩ := hwf
    exact ⟨by simp, by simp [hover], hinv1.2⟩

/-- A reachable state for C6: the logger built on a file of three bytes. -/
theorem sizeNum_is_file_length_witness :
    ∃ c : Bytes,
      (newAsyncFileLogger (Env.allOk ⟨2026, 11, 1, 23, 16, 5⟩) "access.log"
        { fs := fun p => if p = "access.log" then some [1, 2, 3] else none,
          trace := [] }).2.fs "access.log" = some c ∧
      (3 : Int) = (c.length : Int) :=
  (sizeNum_is_file_length MaxLogFileSize
    { filename := "access.log", file := ⟨"access.log"⟩, queue := [], sizeNum := 3 }
    (newAsyncFileLogger (Env.allOk ⟨2026, 11, 1, 23, 16, 5⟩) "access.log"
      { fs := fun p => if p = "access.log" then some [1, 2, 3] else none, trace := [] }).2
    (Reachable.init (Env.allOk ⟨2026, 11, 1, 23, 16, 5⟩) "access.log"
      { fs := fun p => if p = "access.log" then some [1, 2, 3] else none, trace := [] }
      { filename := "access.log", file := ⟨"access.log"⟩, queue := [], sizeNum := 3 }
      rfl)).2.1

/-- C10. From a state whose size counter is the length of the file at
`filename` (open in the handle): when the counter is at most `MaxLogFileSize`, a
`writeFile` of a record `small` of at most `MaxLogFileSize` bytes that returns
leaves a file, and a counter, of at most `MaxLogFileSize` bytes; and a
`writeFile` of a record `big` of more than `MaxLogFileSize` bytes in which no
call fails rotates first (also when the file is empty), then writes, and leaves
the file at `filename` holding exactly `big`, longer than `MaxLogFileSize`. -/
theorem writeFile_size_bound (env : Env) (l : asyncFileLogger) (w : World)
    (c small big : Bytes) (hname : l.file.name = l.filename) (hc : w.fs l.filename = some c)
    (hsz : l.sizeNum = (c.length : Int)) :
    (l.sizeNum ≤ MaxLogFileSize → (small.length : Int) ≤ MaxLogFileSize →
      ∀ l1 w1, writeFile MaxLogFileSize env l w small = .done l1 w1 →
        ∃ c1 : Bytes, w1.fs l1.filename = some c1 ∧ l1.file.name = l1.filename ∧
          (c1.length : Int) ≤ MaxLogFileSize ∧ l1.sizeNum = (c1.length : Int)) ∧
    ((big.length : Int) > MaxLogFileSize → env.noFail →
      (writeFile MaxLogFileSize env l w big).isDone = true ∧
      (writeFile MaxLogFileSize env l w big).world.trace =
        w.trace ++ [Event.sync l.filename true, Event.close l.filename true,
          Event.rename l.filename (rotatedName l.filename env.now) true,
          Event.openFile l.filename true, Event.stat l.filename true,
          Event.write l.filename big true] ∧
      (writeFile MaxLogFileSize env l w big).world.fs (rotatedName l.filename env.now) =
        some c ∧
      (writeFile MaxLogFileSize env l w big).world.fs l.filename = some big ∧
      (writeFile MaxLogFileSize env l w big).logger.sizeNum = (big.length : Int) ∧
      (writeFile MaxLogFileSize env l w big).logger.sizeNum > MaxLogFileSize) := by
  constructor
  · intro hle hsmall l1 w1 hwf
    obtain ⟨hw, ⟨hfit, _⟩ | ⟨hover, hr, ho, hs, _⟩⟩ :=
      writeFile_done_inv MaxLogFileSize env l w small l1 w1 hwf
    · rw [writeFile_append_eq MaxLogFileSize env l w small c hfit hw (hname ▸ hc)] at hwf
      simp only [Outcome.done.injEq] at hwf
      obtain ⟨rfl, rfl⟩ := hwf
      refine ⟨c ++ small, by simp [FS.set, hname], hname, ?_, by simp [hsz]⟩
      simp only [List.length_append, Nat.cast_add]
      omega
    · rw [writeFile_rotate_eq MaxLogFileSize env l w small c hover hr ho hs hw hc] at hwf
      simp only [Outcome.done.injEq] at hwf
      obtain ⟨rfl, rfl⟩ := hwf
      exact ⟨small, by simp [FS.set], rfl, hsmall, rfl⟩
  · intro hbig hio
    obtain ⟨_, ho, hs, hsy, hcl, hr, hw⟩ := hio
    have hover : (big.length : Int) + l.sizeNum > MaxLogFileSize := by
      have : (0 : Int) ≤ (c.length : Int) := Int.ofNat_nonneg _
      omega
    rw [writeFile_rotate_eq MaxLogFileSize env l w big c hover hr ho hs hw hc]
    have hne : rotatedName l.filename env.now ≠ l.filename := rotatedName_ne _ _
    simp [Outcome.isDone, Outcome.world, Outcome.logger, rotatedWorld, FS.set, hne, hname, hsy,
      hcl]
    exact hbig

/-- C10 at concrete inputs: a one-byte record on a three-byte file stays within
the bound, and a record of `MaxLogFileSize + 1` bytes is written whole into a
fresh file. -/
theorem writeFile_size_bound_witness :
    (∃ c1 : Bytes,
      (writeFile MaxLogFileSize (Env.allOk exampleTime) (exampleLogger [] 3)
        (exampleWorld [1, 2, 3]) [4]).world.fs "access.log" = some c1 ∧
      (c1.length : Int) ≤ MaxLogFileSize) ∧
    (writeFile MaxLogFileSize (Env.allOk exampleTime) (exampleLogger [] 3)
      (exampleWorld [1, 2, 3]) bigRecord).world.fs (exampleLogger [] 3).filename =
        some bigRecord :=
  have h := writeFile_size_bound (Env.allOk exampleTime) (exampleLogger [] 3)
    (exampleWorld [1, 2, 3]) [1, 2, 3] [4] bigRecord rfl rfl rfl
  ⟨(h.1 (by decide) (by decide) _ _ rfl).imp fun _ hc1 => ⟨hc1.1, hc1.2.2.1⟩,
    (h.2 (by rw [bigRecord_length]; decide) (by decide)).2.2.2.1⟩

/-- C8, as stated, fails: two rotations of `access.log` in the same second, a
record written in between.  The second rotation does not fail, and the file the
first rotation left, which held `[1, 2, 3]`, holds `[9]` afterwards. -/
theorem second_rotation_replaces_first :
    (rotateLog (Env.allOk exampleTime) (exampleLogger [] 3) (exampleWorld [1, 2, 3])).world.fs
      "access.log-20261101231605" = some [1, 2, 3] ∧
    (rotateLog (Env.allOk exampleTime)
      (writeFile MaxLogFileSize (Env.allOk exampleTime)
        (rotateLog (Env.allOk exampleTime) (exampleLogger [] 3) (exampleWorld [1, 2, 3])).logger
        (rotateLog (Env.allOk exampleTime) (exampleLogger [] 3) (exampleWorld [1, 2, 3])).world
        [9]).logger
      (writeFile MaxLogFileSize (Env.allOk exampleTime)
        (rotateLog (Env.allOk exampleTime) (exampleLogger [] 3) (exampleWorld [1, 2, 3])).logger
        (rotateLog (Env.allOk exampleTime) (exampleLogger [] 3) (exampleWorld [1, 2, 3])).world
        [9]).world).isDone = true ∧
    (rotateLog (Env.allOk exampleTime)
      (writeFile MaxLogFileSize (Env.allOk exampleTime)
        (rotateLog (Env.allOk exampleTime) (exampleLogger [] 3) (exampleWorld [1, 2, 3])).logger
        (rotateLog (Env.allOk exampleTime) (exampleLogger [] 3) (exampleWorld [1, 2, 3])).world
        [9]).logger
      (writeFile MaxLogFileSize (Env.allOk exampleTime)
        (rotateLog (Env.allOk exampleTime) (exampleLogger [] 3) (exampleWorld [1, 2, 3])).logger
        (rotateLog (Env.allOk exampleTime) (exampleLogger [] 3) (exampleWorld [1, 2, 3])).world
        [9]).world).world.fs "access.log-20261101231605" = some [9] := by
  decide

/-- C8, amended.  When a rotation in which no call fails computes a name at which
a file already is (left there by an earlier rotation in the same second), the
rename succeeds and replaces that file: `rotateLog` returns, the file at the
rotated name holds the bytes `c` of the file rotated now instead of the earlier
bytes `old`, and a new empty file is at `filename`. -/
theorem rotateLog_replaces_on_collision (env : Env) (l : asyncFileLogger) (w : World)
    (c old : Bytes) (hio : env.noFail) (hc : w.fs l.filename = some c)
    (_hold : w.fs (rotatedName l.filename env.now) = some old) :
    (rotateLog env l w).isDone = true ∧
    (rotateLog env l w).world.trace =
      w.trace ++ [Event.sync l.file.name true, Event.close l.file.name true,
        Event.rename l.filename (rotatedName l.filename env.now) true,
        Event.openFile l.filename true, Event.stat l.filename true] ∧
    (rotateLog env l w).world.fs (rotatedName l.filename env.now) = some c ∧
    (old ≠ c → (rotateLog env l w).world.fs (rotatedName l.filename env.now) ≠ some old) ∧
    (rotateLog env l w).world.fs l.filename = some [] ∧
    (rotateLog env l w).logger.sizeNum = 0 := by
  obtain ⟨_, ho, hs, hsy, hcl, hr, _⟩ := hio
  have hne : rotatedName l.filename env.now ≠ l.filename := rotatedName_ne _ _
  rw [rotateLog_eq env l w c hr ho hs hc]
  simp [Outcome.isDone, Outcome.world, Outcome.logger, rotatedWorld, FS.set, hne, hsy, hcl]
  intro h1 h2
  exact h1 h2.symm

/-- C8, amended, at a concrete input: a file is already at the rotated name. -/
theorem rotateLog_replaces_on_collision_witness :
    (rotateLog (Env.allOk exampleTime) (exampleLogger [] 1)
      { fs := fun p => if p = "access.log" then some [9]
                else if p = "access.log-20261101231605" then some [1, 2, 3] else none,
        trace := [] }).world.fs "access.log-20261101231605" = some [9] :=
  (rotateLog_replaces_on_collision (Env.allOk exampleTime) (exampleLogger [] 1)
    { fs := fun p => if p = "access.log" then some [9]
              else if p = "access.log-20261101231605" then some [1, 2, 3] else none,
      trace := [] }
    [9] [1, 2, 3] (by decide) (by decide) (by decide)).2.2.1

/-- C3. Records `pre` followed by `rk` are written by successive `writeFile`
calls with threshold `T`, no call failing.  The counter plus the sizes of `pre`
stays at most `T` (so no earlier prefix crosses either) and adding `rk` exceeds
`T`: the crossing is at `rk`.  Then the calls return; the trace is the writes of
`pre`, then one rotation (sync, close, rename, open, stat), then the write of
`rk`; there is exactly one rename; the rotated file holds the old content followed
by `pre`; the file at `filename` holds exactly `rk`. -/
theorem rotation_trigger (T : Int) (envs : Nat → Env) (pre : List Bytes) (rk : Bytes)
    (l : asyncFileLogger) (w : World) (c : Bytes)
    (hname : l.file.name = l.filename) (hc : w.fs l.filename = some c)
    (hio : ∀ i, (envs i).noFail)
    (hbelow : l.sizeNum + (pre.flatten.length : Int) ≤ T)
    (hcross : l.sizeNum + (pre.flatten.length : Int) + (rk.length : Int) > T) :
    (writeFiles T envs 0 (pre ++ [rk]) l w).isDone = true ∧
    (writeFiles T envs 0 (pre ++ [rk]) l w).world.trace =
      w.trace ++ writeEvents l.filename pre ++
        [Event.sync l.filename true, Event.close l.filename true,
          Event.rename l.filename (rotatedName l.filename (envs pre.length).now) true,
          Event.openFile l.filename true, Event.stat l.filename true,
          Event.write l.filename rk true] ∧
    rotationCount (writeFiles T envs 0 (pre ++ [rk]) l w).world.trace =
      rotationCount w.trace + 1 ∧
    (writeFiles T envs 0 (pre ++ [rk]) l w).world.fs
      (rotatedName l.filename (envs pre.length).now) = some (c ++ pre.flatten) ∧
    (writeFiles T envs 0 (pre ++ [rk]) l w).world.fs l.filename = some rk ∧
    (writeFiles T envs 0 (pre ++ [rk]) l w).logger.sizeNum = (rk.length : Int) := by
  obtain ⟨w1, h1, h2, _, h4⟩ := writeFiles_fit T envs pre 0 l w c (hname ▸ hc)
    (fun j => (hio j).2.2.2.2.2.2) hbelow
  obtain ⟨_, ho, hs, hsy, hcl, hr, hw⟩ := hio pre.length
  have hne : rotatedName l.filename (envs pre.length).now ≠ l.filename := rotatedName_ne _ _
  rw [hname] at h2 h4
  have hstep := writeFile_rotate_eq T (envs pre.length)
    { l with sizeNum := l.sizeNum + (pre.flatten.length : Int) } w1 rk (c ++ pre.flatten)
    (by simp only; omega) hr ho hs hw h2
  rw [writeFiles_append, h1]
  simp only [writeFiles, Nat.zero_add, hstep]
  refine ⟨rfl, ?_, ?_, ?_, ?_, rfl⟩
  · simp [Outcome.world, rotatedWorld, h4, hname, hsy, hcl]
  · simp [Outcome.world, rotatedWorld, h4, rotationCount_append, rotationCount_writeEvents,
      rotationCount]
  · simp [Outcome.world, rotatedWorld, FS.set, hne]
  · simp [Outcome.world, rotatedWorld, FS.set]

/-- The scenario of C3: threshold 100 and three records of 40 bytes on an empty
file end with a rotated file of 80 bytes and a file of 40 bytes at `filename`. -/
theorem rotation_trigger_witness :
    ((writeFiles 100 (fun _ => Env.allOk exampleTime) 0
        ([List.replicate 40 7, List.replicate 40 7] ++ [List.replicate 40 7])
        (exampleLogger [] 0) (exampleWorld [])).world.content
          "access.log-20261101231605").length = 80 ∧
    ((writeFiles 100 (fun _ => Env.allOk exampleTime) 0
        ([List.replicate 40 7, List.replicate 40 7] ++ [List.replicate 40 7])
        (exampleLogger [] 0) (exampleWorld [])).world.content "access.log").length = 40 ∧
    rotationCount (writeFiles 100 (fun _ => Env.allOk exampleTime) 0
        ([List.replicate 40 7, List.replicate 40 7] ++ [List.replicate 40 7])
        (exampleLogger [] 0) (exampleWorld [])).world.trace = 1 :=
  have h := rotation_trigger 100 (fun _ => Env.allOk exampleTime)
    [List.replicate 40 7, List.replicate 40 7] (List.replicate 40 7)
    (exampleLogger [] 0) (exampleWorld []) [] rfl rfl
    (fun _ => (by decide : (Env.allOk exampleTime).noFail)) (by decide) (by decide)
  ⟨by decide, by decide, h.2.2.1⟩

/-- C1, as stated, fails.  The file holds `[1]`, the queue holds a record of
`MaxLogFileSize` bytes (all zero) and the record `[2]`, and the whole drain runs
within one second.  Each write rotates first and both rotations take the same
name, so the second rename replaces the file that held `[1]`.  `Close` returns
`nil` with the queue empty, and the byte `1` that the file held before `Close`
is in no file afterwards. -/
theorem Close_loses_rotated_file_on_collision :
    ∃ (l1 : asyncFileLogger) (w1 : World),
      Close MaxLogFileSize (fun _ => Env.allOk exampleTime) (Env.allOk exampleTime) 2
        (exampleLogger [fullContent, [2]] 1) (exampleWorld [1]) =
          some (.returned none l1 w1) ∧
      l1.queue = [] ∧
      rotatedNames w1.trace = ["access.log-20261101231605", "access.log-20261101231605"] ∧
      w1.fs "access.log-20261101231605" = some fullContent ∧
      w1.fs "access.log" = some [2] ∧
      (∀ p c1, w1.fs p = some c1 → (1 : UInt8) ∉ c1) ∧
      ((rotatedNames w1.trace).map w1.content).flatten ++ w1.content "access.log" ≠
        [1] ++ [fullContent, [2]].flatten := by
  have hdst : rotatedName (exampleLogger [fullContent, [2]] 1).filename
      (Env.allOk exampleTime).now = "access.log-20261101231605" := by decide
  have hfn : (exampleLogger [fullContent, [2]] 1).filename = "access.log" := by decide
  have htr : rotatedNames (exampleWorld [1]).trace = [] := by decide
  obtain ⟨l1, w1, hd, hq, hnames, hrot, hact, hframe⟩ :=
    Close_two_rotations MaxLogFileSize (Env.allOk exampleTime)
      (exampleLogger [fullContent, [2]] 1) (exampleWorld [1]) [1] fullContent [2] rfl rfl
      (by decide) (by rw [fullContent_length]; decide) (by rw [fullContent_length]; decide)
  rw [hdst, htr, List.nil_append] at hnames
  rw [hdst] at hrot
  rw [hfn] at hact
  rw [hdst, hfn] at hframe
  have hzero : (1 : UInt8) ∉ fullContent :=
    fun h => absurd (List.eq_of_mem_replicate h) (by decide)
  refine ⟨l1, w1, hd, hq, hnames, hrot, hact, ?_, ?_⟩
  · intro p c1 hp
    by_cases hp1 : p = "access.log"
    · rw [hp1, hact] at hp
      cases hp
      decide
    · by_cases hp2 : p = "access.log-20261101231605"
      · rw [hp2, hrot] at hp
        cases hp
        exact hzero
      · rw [hframe p hp1 hp2] at hp
        simp [exampleWorld, hp1] at hp
  · rw [hnames]
    exact collision_bytes_ne w1 _ _ [1] fullContent [2] hrot hact
      (by rw [fullContent_length]; decide)

/-- C1, amended.  A logger whose file at `filename` (open in the handle) holds `c`
is closed; no call fails and nothing is enqueued meanwhile.  With as many
iterations as records are queued, `Close` returns `nil` and the queue is empty.
If moreover the rotations of the drain took pairwise distinct names (no two of
them within the same second), the files rotated during the drain, in rotation
order, followed by the file at `filename`, hold `c` followed by the queued records
in order, each once. -/
theorem Close_drains_queue (envs : Nat → Env) (fin : Env) (l : asyncFileLogger) (w : World)
    (c : Bytes) (hname : l.file.name = l.filename) (hc : w.fs l.filename = some c)
    (hio : ∀ i, (envs i).noFail) (hfin : fin.noFail) :
    ∃ (l1 : asyncFileLogger) (w1 : World) (evs : List Event),
      Close MaxLogFileSize envs fin l.queue.length l w = some (.returned none l1 w1) ∧
      l1.queue = [] ∧
      w1.trace = w.trace ++ evs ∧
      ((rotatedNames evs).Nodup →
        ((rotatedNames evs).map w1.content).flatten ++ w1.content l.filename =
          c ++ l.queue.flatten) := by
  obtain ⟨l1, w1, evs, hd, hq, _, _, htr, _, hcontent⟩ :=
    drain_spec MaxLogFileSize envs l.queue l.queue.length 0 l w c rfl (le_refl _) hname hc hio
  obtain ⟨_, _, _, hsy, hcl, _, _⟩ := hfin
  refine ⟨l1, { w1 with trace := w1.trace ++
      [Event.sync l1.file.name true, Event.close l1.file.name true] },
    evs ++ [Event.sync l1.file.name true, Event.close l1.file.name true], ?_, hq, ?_, ?_⟩
  · simp [Close, hd, osSync, osClose, hsy, hcl]
  · simp [htr]
  · have hn : rotatedNames (evs ++
        [Event.sync l1.file.name true, Event.close l1.file.name true]) = rotatedNames evs := by
      simp [rotatedNames_append, rotatedNames]
    rw [hn]
    exact hcontent

/-- A run of C1, amended: a full file and two queued records; the first write
rotates, and `Close` returns with the queue empty. -/
theorem Close_drains_queue_witness :
    ∃ (l1 : asyncFileLogger) (w1 : World) (evs : List Event),
      Close MaxLogFileSize (fun _ => Env.allOk exampleTime) (Env.allOk exampleTime)
        (exampleLogger [[1], [2]] 1887436800).queue.length
        (exampleLogger [[1], [2]] 1887436800) (exampleWorld fullContent) =
          some (.returned none l1 w1) ∧
      l1.queue = [] ∧
      w1.trace = (exampleWorld fullContent).trace ++ evs ∧
      ((rotatedNames evs).Nodup →
        ((rotatedNames evs).map w1.content).flatten ++
            w1.content (exampleLogger [[1], [2]] 1887436800).filename =
          fullContent ++ (exampleLogger [[1], [2]] 1887436800).queue.flatten) :=
  Close_drains_queue (fun _ => Env.allOk exampleTime) (Env.allOk exampleTime)
    (exampleLogger [[1], [2]] 1887436800) (exampleWorld fullContent) fullContent rfl rfl
    (fun _ => (by decide : (Env.allOk exampleTime).noFail)) (by decide)

end accesslog
